import Mathlib

/-!
Verification of the myriam actor library against its specification.

The development shallowly embeds the code of `src/actors/local.rs`,
`src/actors/remote.rs`, `src/actors/remote/address.rs` and
`src/actors/remote/router.rs`: enums become inductives, the worker loops
become recursive functions over the queued messages, byte streams become
lists of naturals below 256, and the async fault surface (connect, write,
read, flush) is made explicit as boolean fault parameters.
-/

/-- Rust `Message<Input>` from `src/messaging.rs`: `Task`, `TaskMut`, `Ping`, `Stop`. -/
inductive Message (I : Type) where
  | task (i : I)
  | taskMut (i : I)
  | ping
  | stop
  deriving DecidableEq

/-- Rust `Reply<Output>` from `src/messaging.rs`: `Accepted` or `Task(o)`. -/
inductive Reply (O : Type) where
  | accepted
  | task (o : O)
  deriving DecidableEq

/-- Rust `MsgError<Error>` as used by the actors modules: `Send`, `Recv`,
`Task(E)`, `NotAllowed` (the unit forms of `Send`/`Recv`, as the code in
`src/actors` constructs them). -/
inductive MsgError (E : Type) where
  | send
  | recv
  | task (e : E)
  | notAllowed
  deriving DecidableEq

/-- Rust `MsgResult<O, E> = Result<Reply<O>, MsgError<E>>`. -/
abbrev MsgResult (O E : Type) := Except (MsgError E) (Reply O)

/-- Modelled from the spec: the current-generation `Actor` trait used by
`src/actors/local.rs` (its defining module is not in the tree; the in-tree
`actors/mod.rs` is an older libp2p generation).  Per spec section 4.1 the user
object exposes a read-only handler returning a value or the user error, and
a mutating handler that may also return no value, threading the actor
state. -/
structure Actor (σ I O E : Type) where
  handler : σ → I → Except E O
  handlerMut : σ → I → σ × Except E (Option O)

/-- Which user handler a dispatch step invoked (for stating the
"without invoking any handler" clauses). -/
inductive HCall (I : Type) where
  | ro (i : I)
  | mu (i : I)
  deriving DecidableEq

/-- Result of dispatching one mailbox message in the worker of
`local::spawn` (`src/actors/local.rs` lines 29-56). -/
structure StepOut (σ O E : Type) (I : Type) where
  state : σ
  reply : MsgResult O E
  calls : List (HCall I)
  halt : Bool

/-- The match arms of the worker loop in `local::spawn`
(`src/actors/local.rs` lines 30-55). -/
def dispatch (a : Actor σ I O E) (s : σ) : Message I → StepOut σ O E I
  | Message.task input =>
      let result : MsgResult O E :=
        match a.handler s input with
        | Except.ok res => Except.ok (Reply.task res)
        | Except.error err => Except.error (MsgError.task err)
      ⟨s, result, [HCall.ro input], false⟩
  | Message.taskMut input =>
      let out := a.handlerMut s input
      let result : MsgResult O E :=
        match out.2 with
        | Except.ok (some res) => Except.ok (Reply.task res)
        | Except.ok none => Except.ok Reply.accepted
        | Except.error err => Except.error (MsgError.task err)
      ⟨out.1, result, [HCall.mu input], false⟩
  | Message.ping => ⟨s, Except.ok Reply.accepted, [], false⟩
  | Message.stop => ⟨s, Except.ok Reply.accepted, [], true⟩

/-- The worker loop of `local::spawn` run over the queued mailbox
contents.  After the `Stop` arm breaks the loop, the remaining queued
messages are dropped together with their one-shot reply senders, so each
such sender observes `MsgError::Recv` (`LocalHandle::send`,
`src/actors/local.rs` line 97). -/
def runMailbox (a : Actor σ I O E) (s : σ) :
    List (Message I) → List (MsgResult O E) × List (HCall I)
  | [] => ([], [])
  | m :: rest =>
      let o := dispatch a s m
      if o.halt then
        (o.reply :: rest.map (fun _ => Except.error MsgError.recv), o.calls)
      else
        let tail := runMailbox a o.state rest
        (o.reply :: tail.1, o.calls ++ tail.2)

/-- Rust `LocalHandle::send` (`src/actors/local.rs` lines 89-98) seen from the
caller: `none` models the mpsc send failing (mailbox closed, mapped to
`MsgError::Send`); `some none` models the one-shot reply sender being
dropped (mapped to `MsgError::Recv`); `some (some r)` is a delivered
reply. -/
def sendOutcome : Option (Option (MsgResult O E)) → MsgResult O E
  | none => Except.error MsgError.send
  | some none => Except.error MsgError.recv
  | some (some r) => r

/-- Concrete actor used by witnesses, mirroring the `Mult` test fixture
(`Mult { a }` multiplies its input by `a`; spec section 8 scenario 1). -/
def multActor (a : Nat) : Actor Unit Nat Nat Nat where
  handler := fun _ i => Except.ok (a * i)
  handlerMut := fun s i => (s, Except.ok (some (a * i)))

/-- C1: for every spawned LocalActor and mailbox message, the reply follows
the dispatch table of `local::spawn`: `Task(i)` yields `Ok(Reply::Task(o))`
exactly when the read-only handler returns `Ok(o)` and
`Err(MsgError::Task(e))` exactly when it returns `Err(e)`; `TaskMut(i)`
maps the mutating handler's `Ok(Some(o))` to `Ok(Reply::Task(o))`,
`Ok(None)` to `Ok(Reply::Accepted)` and `Err(e)` to `Err(MsgError::Task(e))`;
`Ping` yields `Ok(Reply::Accepted)` invoking no handler; `Stop` yields
`Ok(Reply::Accepted)`. -/
theorem local_dispatch_table (a : Actor σ I O E) (s : σ) (i : I) (o : O) (e : E) :
    ((dispatch a s (Message.task i)).reply = Except.ok (Reply.task o)
        ↔ a.handler s i = Except.ok o)
    ∧ ((dispatch a s (Message.task i)).reply = Except.error (MsgError.task e)
        ↔ a.handler s i = Except.error e)
    ∧ ((dispatch a s (Message.taskMut i)).reply = Except.ok (Reply.task o)
        ↔ (a.handlerMut s i).2 = Except.ok (some o))
    ∧ ((dispatch a s (Message.taskMut i)).reply = Except.ok Reply.accepted
        ↔ (a.handlerMut s i).2 = Except.ok none)
    ∧ ((dispatch a s (Message.taskMut i)).reply = Except.error (MsgError.task e)
        ↔ (a.handlerMut s i).2 = Except.error e)
    ∧ (dispatch a s Message.ping).reply = Except.ok Reply.accepted
    ∧ (dispatch a s Message.ping).calls = []
    ∧ (dispatch a s Message.stop).reply = Except.ok Reply.accepted
    ∧ (dispatch a s Message.stop).calls = [] := by
  refine ⟨?_, ?_, ?_, ?_, ?_, rfl, rfl, rfl, rfl⟩
  · constructor
    · intro h
      cases hh : a.handler s i <;> simp [dispatch, hh] at h ⊢
      exact h
    · intro h; simp [dispatch, h]
  · constructor
    · intro h
      cases hh : a.handler s i <;> simp [dispatch, hh] at h ⊢
      exact h
    · intro h; simp [dispatch, h]
  · constructor
    · intro h
      rcases hh : (a.handlerMut s i).2 with e' | o' <;>
        simp [dispatch, hh] at h ⊢
      cases o' <;> simp_all
    · intro h; simp [dispatch, h]
  · constructor
    · intro h
      rcases hh : (a.handlerMut s i).2 with e' | o' <;>
        simp [dispatch, hh] at h ⊢
      cases o' <;> simp_all
    · intro h; simp [dispatch, h]
  · constructor
    · intro h
      rcases hh : (a.handlerMut s i).2 with e' | o' <;>
        simp [dispatch, hh] at h ⊢
      · exact h
      · cases o' <;> simp_all
    · intro h; simp [dispatch, h]

/-- Only the `Stop` arm of the worker loop breaks (`src/actors/local.rs`
line 53). -/
theorem dispatch_halt_eq_false (a : Actor σ I O E) (s : σ) (m : Message I)
    (h : m ≠ Message.stop) : (dispatch a s m).halt = false := by
  cases m <;> simp [dispatch] at h ⊢

/-- C3: `Stop` is terminal.  Once the worker answers `Stop` with
`Reply::Accepted` it processes no further message: every message still
pending in the mailbox is dropped and its sender observes `MsgError::Recv`,
no handler call happens after the stop, and a send against a closed
mailbox or a dropped reply channel yields `MsgError::Send` respectively
`MsgError::Recv`, never a successful reply. -/
theorem local_stop_terminal (a : Actor σ I O E) (s : σ)
    (pre suf : List (Message I)) (hpre : Message.stop ∉ pre) :
    (runMailbox a s (pre ++ Message.stop :: suf)).1
        = (runMailbox a s pre).1
            ++ Except.ok Reply.accepted
            :: suf.map (fun _ => Except.error MsgError.recv)
    ∧ (runMailbox a s (pre ++ Message.stop :: suf)).2 = (runMailbox a s pre).2
    ∧ sendOutcome (O := O) (E := E) none = Except.error MsgError.send
    ∧ sendOutcome (O := O) (E := E) (some none) = Except.error MsgError.recv
    ∧ (∀ r : Option (Option (MsgResult O E)), ∀ y : Reply O,
        sendOutcome r = Except.ok y → r = some (some (Except.ok y))) := by
  refine ⟨?_, ?_, rfl, rfl, ?_⟩
  · induction pre generalizing s with
    | nil => simp [runMailbox, dispatch]
    | cons m rest ih =>
        have hm : m ≠ Message.stop := fun h => hpre (by simp [h])
        have hrest : Message.stop ∉ rest := fun h => hpre (by simp [h])
        simp only [List.cons_append, runMailbox,
          dispatch_halt_eq_false a s m hm, ite_false, Bool.false_eq_true,
          if_false]
        simp [ih _ hrest]
  · induction pre generalizing s with
    | nil => simp [runMailbox, dispatch]
    | cons m rest ih =>
        have hm : m ≠ Message.stop := fun h => hpre (by simp [h])
        have hrest : Message.stop ∉ rest := fun h => hpre (by simp [h])
        simp only [List.cons_append, runMailbox,
          dispatch_halt_eq_false a s m hm, ite_false, Bool.false_eq_true,
          if_false]
        simp [ih _ hrest]
  · intro r y h
    match r with
    | none => simp [sendOutcome] at h
    | some none => simp [sendOutcome] at h
    | some (some v) => cases v <;> simp_all [sendOutcome]

/-- Witness for C3 at the concrete `Mult` actor: a task, then `Stop`,
with a `Ping` left pending. -/
theorem local_stop_terminal_witness :
    (runMailbox (multActor 5) () ([Message.task 3] ++ Message.stop :: [Message.ping])).1
        = (runMailbox (multActor 5) () [Message.task 3]).1
            ++ Except.ok Reply.accepted
            :: ([Message.ping] : List (Message Nat)).map
                (fun _ => Except.error MsgError.recv)
    ∧ (runMailbox (multActor 5) ()
          ([Message.task 3] ++ Message.stop :: [Message.ping])).2
        = (runMailbox (multActor 5) () [Message.task 3]).2
    ∧ sendOutcome (O := Nat) (E := Nat) none = Except.error MsgError.send
    ∧ sendOutcome (O := Nat) (E := Nat) (some none) = Except.error MsgError.recv
    ∧ (∀ r : Option (Option (MsgResult Nat Nat)), ∀ y : Reply Nat,
        sendOutcome r = Except.ok y → r = some (some (Except.ok y))) :=
  local_stop_terminal (multActor 5) () [Message.task 3] [Message.ping] (by decide)

/-- Rust `local::Error` (`src/actors/local.rs` lines 121-124): the single
variant `Spawn`. -/
inductive LocalError where
  | spawnFail
  deriving DecidableEq

/-- The tail of `local::spawn` (`src/actors/local.rs` lines 59-62) seen
from the caller: the worker's readiness message over the confirmation
one-shot channel is `none` when the sender was dropped without sending
(mapped to `Error::Spawn` by the first `?`), otherwise the sent
`Result<(), Error>` (propagated by the second `?`).  `Except.ok ()` stands
for the `Ok(LocalHandle { sender })` return. -/
def spawnOutcome : Option (Except LocalError Unit) → Except LocalError Unit
  | none => Except.error LocalError.spawnFail
  | some (Except.error e) => Except.error e
  | some (Except.ok ()) => Except.ok ()

/-- C8: spawn atomicity.  `local::spawn` returns a handle exactly when the
worker delivered its readiness confirmation `Ok(())` over the internal
one-shot channel; a confirmation sender dropped without sending yields
`Err(Error::Spawn)` and no handle. -/
theorem spawn_atomic (conf : Option (Except LocalError Unit)) :
    (spawnOutcome conf = Except.ok () ↔ conf = some (Except.ok ()))
    ∧ spawnOutcome none = Except.error LocalError.spawnFail := by
  refine ⟨?_, rfl⟩
  match conf with
  | none => simp [spawnOutcome]
  | some (Except.error e) => simp [spawnOutcome]
  | some (Except.ok ()) => simp [spawnOutcome]

/-- Witness for C8 at the delivered-confirmation input. -/
theorem spawn_atomic_witness :
    (spawnOutcome (some (Except.ok ())) = Except.ok ()
        ↔ (some (Except.ok ()) : Option (Except LocalError Unit))
            = some (Except.ok ()))
    ∧ spawnOutcome none = Except.error LocalError.spawnFail :=
  spawn_atomic (some (Except.ok ()))

/-- Value of one hex digit, accepting both cases on input like the `hex`
crate does (`hex::decode`). -/
def hexDigitVal? (c : Char) : Option Nat :=
  if ('0' ≤ c ∧ c ≤ '9') then some (c.toNat - '0'.toNat)
  else if ('a' ≤ c ∧ c ≤ 'f') then some (c.toNat - 'a'.toNat + 10)
  else if ('A' ≤ c ∧ c ≤ 'F') then some (c.toNat - 'A'.toNat + 10)
  else none

/-- Rust `hex::decode`: fails on odd length or a non-hex character; the empty
string decodes to the empty byte string. -/
def hexDecode : List Char → Option (List Nat)
  | [] => some []
  | [_] => none
  | c1 :: c2 :: rest =>
      match hexDigitVal? c1, hexDigitVal? c2, hexDecode rest with
      | some hi, some lo, some bs => some ((16 * hi + lo) :: bs)
      | _, _, _ => none

/-- Lowercase hex digit character for a value below 16 (`hex::encode`). -/
def hexDigitChar (n : Nat) : Char :=
  if n < 10 then Char.ofNat ('0'.toNat + n) else Char.ofNat ('a'.toNat + n - 10)

/-- Rust `hex::encode` over a byte string: two lowercase digits per byte,
high nibble first. -/
def hexEncode : List Nat → List Char
  | [] => []
  | b :: bs => hexDigitChar (b / 16) :: hexDigitChar (b % 16) :: hexEncode bs

/-- Rust `address::Error` (`src/actors/remote/address.rs` lines 195-198). -/
inductive AddrError where
  | malformed
  | id
  deriving DecidableEq

/-- Rust `PeerId` (`src/actors/remote/address.rs` line 139): a bag of bytes. -/
structure PeerId where
  bytes : List Nat
  deriving DecidableEq

/-- Rust `PeerId::try_parse` (`src/actors/remote/address.rs` lines 162-166):
hex-decode the string, any failure mapping to `Error::Id`. -/
def PeerId.tryParse (value : List Char) : Except AddrError PeerId :=
  match hexDecode value with
  | some bs => Except.ok ⟨bs⟩
  | none => Except.error AddrError.id

/-- Rust `ActorAddress` (`src/actors/remote/address.rs` lines 18-22). -/
structure ActorAddress where
  proto_id : List Char
  peer_id : PeerId
  host : List Char
  deriving DecidableEq

/-- Rust's `str::find(char)`: index of the first occurrence. -/
def findChar? (c : Char) : List Char → Option Nat
  | [] => none
  | a :: l => if a = c then some 0 else (findChar? c l).map (fun i => i + 1)

/-- Rust `ActorAddress::try_parse` (`src/actors/remote/address.rs` lines
67-82): index of the first `:` and of the first `@`; either missing, the
`:` at position 0, the `@` at position 0, or the `:` not strictly before
the `@` is `Malformed`; the slice between the separators parses as the
peer id. -/
def ActorAddress.tryParse (value : List Char) : Except AddrError ActorAddress :=
  match findChar? ':' value, findChar? '@' value with
  | some peerSep, some hostSep =>
      if peerSep = 0 ∨ hostSep = 0 ∨ peerSep ≥ hostSep then
        Except.error AddrError.malformed
      else
        match PeerId.tryParse ((value.drop (peerSep + 1)).take (hostSep - (peerSep + 1))) with
        | Except.ok pid => Except.ok ⟨value.take peerSep, pid, value.drop (hostSep + 1)⟩
        | Except.error e => Except.error e
  | _, _ => Except.error AddrError.malformed

/-- Rust `impl Display for ActorAddress` (`src/actors/remote/address.rs` lines
128-132): `"<tag>:<hex-peer-id>@<host>"`, the peer id displayed through
`hex::encode`. -/
def ActorAddress.display (a : ActorAddress) : List Char :=
  a.proto_id ++ ':' :: hexEncode a.peer_id.bytes ++ '@' :: a.host

/-- Counterexample to C4 as stated: the peer-id segment of `"a:@b"` is
empty, yet `try_parse` succeeds (`hex::decode("")` yields the empty byte
string, so `PeerId::try_parse` does not fail), returning the address with
tag `"a"`, empty peer id and host `"b"`. -/
theorem addr_parse_empty_peer_ok :
    ActorAddress.tryParse [Char.ofNat 97, ':', '@', Char.ofNat 98]
      = Except.ok ⟨[Char.ofNat 97], ⟨[]⟩, [Char.ofNat 98]⟩ := by
  rfl

/-- C4 (amended): `ActorAddress::try_parse` errors on every input whose
tag segment (before the first `:`) is empty or in which the first `@`
does not come strictly after the first `:` (including strings lacking
either separator); an empty peer-id segment between the separators,
however, is accepted as an empty peer id. -/
theorem addr_parse_rejects_malformed (value : List Char)
    (h : findChar? ':' value = none
      ∨ findChar? '@' value = none
      ∨ ∃ p q, findChar? ':' value = some p ∧ findChar? '@' value = some q
          ∧ (p = 0 ∨ p ≥ q)) :
    ActorAddress.tryParse value = Except.error AddrError.malformed := by
  cases h1 : findChar? ':' value with
  | none => simp [ActorAddress.tryParse, h1]
  | some p =>
      cases h2 : findChar? '@' value with
      | none => simp [ActorAddress.tryParse, h2]
      | some q =>
          rcases h with hn | hn | ⟨p', q', hp', hq', hcond⟩
          · rw [h1] at hn; cases hn
          · rw [h2] at hn; cases hn
          · rw [h1] at hp'
            rw [h2] at hq'
            cases hp'
            cases hq'
            simp only [ActorAddress.tryParse, h1, h2]
            rw [if_pos]
            rcases hcond with h0 | hge
            · exact Or.inl h0
            · exact Or.inr (Or.inr hge)

/-- Witness for the amended C4 on the spec's malformed example shape
`"jk@f:a"` (separators inverted). -/
theorem addr_parse_rejects_malformed_witness :
    ActorAddress.tryParse
        [Char.ofNat 106, Char.ofNat 107, '@', Char.ofNat 102, ':', Char.ofNat 97]
      = Except.error AddrError.malformed :=
  addr_parse_rejects_malformed
    [Char.ofNat 106, Char.ofNat 107, '@', Char.ofNat 102, ':', Char.ofNat 97]
    (Or.inr (Or.inr ⟨4, 2, by decide, by decide, Or.inr (by decide)⟩))

/-- Decoding a lowercase hex digit recovers its value. -/
theorem hexDigitVal?_hexDigitChar (n : Nat) (h : n < 16) :
    hexDigitVal? (hexDigitChar n) = some n := by
  interval_cases n <;> decide

/-- A hex digit character is neither separator of the address syntax. -/
theorem hexDigitChar_ne_sep (n : Nat) (h : n < 16) :
    hexDigitChar n ≠ ':' ∧ hexDigitChar n ≠ '@' := by
  interval_cases n <;> decide

/-- A hex digit character is a decimal digit or one of `a`-`f`. -/
theorem hexDigitChar_lower (n : Nat) (h : n < 16) :
    ('0' ≤ hexDigitChar n ∧ hexDigitChar n ≤ '9')
      ∨ ('a' ≤ hexDigitChar n ∧ hexDigitChar n ≤ 'f') := by
  interval_cases n <;> decide

/-- Every character emitted by `hexEncode` on a byte string is a hex
digit character. -/
theorem mem_hexEncode (bs : List Nat) (hb : ∀ b ∈ bs, b < 256) (c : Char)
    (hc : c ∈ hexEncode bs) : ∃ n, n < 16 ∧ c = hexDigitChar n := by
  induction bs with
  | nil => simp [hexEncode] at hc
  | cons b bs ih =>
      have hb0 : b < 256 := hb b (by simp)
      have hhi : b / 16 < 16 := by omega
      have hlo : b % 16 < 16 := Nat.mod_lt _ (by norm_num)
      simp only [hexEncode, List.mem_cons] at hc
      rcases hc with h | h | h
      · exact ⟨b / 16, hhi, h⟩
      · exact ⟨b % 16, hlo, h⟩
      · exact ih (fun x hx => hb x (by simp [hx])) h

/-- Hex round-trip for byte strings: decoding the lowercase encoding
recovers the bytes. -/
theorem hexDecode_hexEncode (bs : List Nat) (hb : ∀ b ∈ bs, b < 256) :
    hexDecode (hexEncode bs) = some bs := by
  induction bs with
  | nil => rfl
  | cons b bs ih =>
      have hb0 : b < 256 := hb b (by simp)
      have hhi : b / 16 < 16 := by omega
      have hlo : b % 16 < 16 := Nat.mod_lt _ (by norm_num)
      have hrest := ih (fun x hx => hb x (by simp [hx]))
      simp only [hexEncode, hexDecode, hexDigitVal?_hexDigitChar _ hhi,
        hexDigitVal?_hexDigitChar _ hlo, hrest]
      have : 16 * (b / 16) + b % 16 = b := Nat.div_add_mod b 16
      rw [this]

/-- Evaluating `findChar?` on a list whose head part avoids the sought character
finds the separator at the length of that part. -/
theorem findChar?_append_sep (c : Char) (l₁ l₂ : List Char)
    (h : ∀ a ∈ l₁, a ≠ c) :
    findChar? c (l₁ ++ c :: l₂) = some l₁.length := by
  induction l₁ with
  | nil => simp [findChar?]
  | cons a l ih =>
      have ha : a ≠ c := h a (by simp)
      have hl : ∀ x ∈ l, x ≠ c := fun x hx => h x (by simp [hx])
      simp [findChar?, ha, ih hl]

/-- C5: address round trip.  For every `ActorAddress` whose protocol tag
is non-empty and free of both separators and whose peer id is a non-empty
byte string, parsing the `Display` form succeeds and returns the address
componentwise; the displayed peer id consists of lowercase hex digits. -/
theorem addr_display_roundtrip (a : ActorAddress)
    (htag : a.proto_id ≠ [])
    (hsep : ∀ c ∈ a.proto_id, c ≠ ':' ∧ c ≠ '@')
    (hpe : a.peer_id.bytes ≠ [])
    (hb : ∀ b ∈ a.peer_id.bytes, b < 256) :
    ActorAddress.tryParse a.display = Except.ok a
    ∧ ∀ c ∈ hexEncode a.peer_id.bytes,
        ('0' ≤ c ∧ c ≤ '9') ∨ ('a' ≤ c ∧ c ≤ 'f') := by
  constructor
  · have hfc : findChar? ':' a.display = some a.proto_id.length := by
      have hsplit : a.display
          = a.proto_id ++ ':' :: (hexEncode a.peer_id.bytes ++ '@' :: a.host) := by
        simp [ActorAddress.display]
      rw [hsplit]
      exact findChar?_append_sep ':' a.proto_id _ (fun x hx => (hsep x hx).1)
    have hhexne : ∀ x ∈ hexEncode a.peer_id.bytes, x ≠ '@' := by
      intro x hx
      obtain ⟨n, hn, rfl⟩ := mem_hexEncode _ hb x hx
      exact (hexDigitChar_ne_sep n hn).2
    have hfa : findChar? '@' a.display
        = some (a.proto_id.length + (hexEncode a.peer_id.bytes).length + 1) := by
      have hsplit : a.display
          = (a.proto_id ++ ':' :: hexEncode a.peer_id.bytes) ++ '@' :: a.host := by
        simp [ActorAddress.display]
      rw [hsplit,
        findChar?_append_sep '@' (a.proto_id ++ ':' :: hexEncode a.peer_id.bytes)
          a.host ?hnotat]
      · simp; omega
      case hnotat =>
        intro x hx
        rcases List.mem_append.mp hx with h1 | h1
        · exact (hsep x h1).2
        · rcases List.mem_cons.mp h1 with h2 | h2
          · rw [h2]; decide
          · exact hhexne x h2
    have hp0 : a.proto_id.length ≠ 0 := by
      simpa [List.length_eq_zero] using htag
    simp only [ActorAddress.tryParse, hfc, hfa]
    rw [if_neg (by omega)]
    have hdrop : a.display.drop (a.proto_id.length + 1)
        = hexEncode a.peer_id.bytes ++ '@' :: a.host := by
      have hsplit : a.display
          = (a.proto_id ++ [':']) ++ (hexEncode a.peer_id.bytes ++ '@' :: a.host) := by
        simp [ActorAddress.display]
      rw [hsplit, show a.proto_id.length + 1 = (a.proto_id ++ [':']).length by simp,
        List.drop_left]
    have hlen : a.proto_id.length + (hexEncode a.peer_id.bytes).length + 1
        - (a.proto_id.length + 1) = (hexEncode a.peer_id.bytes).length := by omega
    rw [hdrop, hlen, List.take_left]
    have hpid : PeerId.tryParse (hexEncode a.peer_id.bytes)
        = Except.ok a.peer_id := by
      unfold PeerId.tryParse
      rw [hexDecode_hexEncode _ hb]
    rw [hpid]
    have htake : a.display.take a.proto_id.length = a.proto_id := by
      have hsplit : a.display
          = a.proto_id ++ (':' :: hexEncode a.peer_id.bytes ++ '@' :: a.host) := by
        simp [ActorAddress.display]
      rw [hsplit, List.take_left]
    have hdrop2 : a.display.drop
        (a.proto_id.length + (hexEncode a.peer_id.bytes).length + 1 + 1) = a.host := by
      have hsplit : a.display
          = (a.proto_id ++ ':' :: hexEncode a.peer_id.bytes ++ ['@']) ++ a.host := by
        simp [ActorAddress.display]
      rw [hsplit, show a.proto_id.length + (hexEncode a.peer_id.bytes).length + 1 + 1
          = (a.proto_id ++ ':' :: hexEncode a.peer_id.bytes ++ ['@']).length by
            simp; omega,
        List.drop_left]
    rw [htake, hdrop2]
  · intro c hc
    obtain ⟨n, hn, rfl⟩ := mem_hexEncode _ hb c hc
    exact hexDigitChar_lower n hn

/-- Witness for C5 at the concrete address `tcp:c0ff@h`. -/
theorem addr_display_roundtrip_witness :
    ActorAddress.tryParse
        (ActorAddress.display ⟨[Char.ofNat 116, Char.ofNat 99, Char.ofNat 112],
          ⟨[192, 255]⟩, [Char.ofNat 104]⟩)
      = Except.ok ⟨[Char.ofNat 116, Char.ofNat 99, Char.ofNat 112],
          ⟨[192, 255]⟩, [Char.ofNat 104]⟩
    ∧ ∀ c ∈ hexEncode (PeerId.bytes ⟨[192, 255]⟩),
        ('0' ≤ c ∧ c ≤ '9') ∨ ('a' ≤ c ∧ c ≤ 'f') :=
  addr_display_roundtrip
    ⟨[Char.ofNat 116, Char.ofNat 99, Char.ofNat 112], ⟨[192, 255]⟩, [Char.ofNat 104]⟩
    (by decide) (by decide) (by decide) (by decide)

/-- Rust `HandleOpts` (`src/actors/remote.rs` lines 104-108): the per-handle
policy flags. -/
structure HandleOpts where
  allow_mut : Bool
  allow_stop : Bool
  deriving DecidableEq

/-- Rust `HandleOpts::new` (`src/actors/remote.rs` lines 117-122): both flags
default to `false`. -/
def HandleOpts.new : HandleOpts := ⟨false, false⟩

/-- Rust `HandleOpts::validate` (`src/actors/remote.rs` lines 127-133): a
`TaskMut` with `allow_mut` unset or a `Stop` with `allow_stop` unset is
`MsgError::NotAllowed`. -/
def HandleOpts.validate (opts : HandleOpts) (msg : Message I) :
    Except (MsgError E) Unit :=
  match msg with
  | Message.taskMut _ => if !opts.allow_mut then Except.error MsgError.notAllowed else Except.ok ()
  | Message.stop => if !opts.allow_stop then Except.error MsgError.notAllowed else Except.ok ()
  | _ => Except.ok ()

/-- Rust `dencoder::Error` (`src/actors/remote/dencoder.rs`). -/
inductive DencError where
  | encErr (ctx : String)
  | decErr (ctx : String)
  deriving DecidableEq

/-- The `Display` string of a `dencoder::Error`, used where the bridge
calls `e.to_string()`. -/
def DencError.str : DencError → String
  | DencError.encErr ctx => "failed to encode message: " ++ ctx
  | DencError.decErr ctx => "failed to decode message: " ++ ctx

/-- A `Dencoder` instance at the four types the bridge and the remote
handle use it with (`encode::<Message<I>>`, `decode::<Message<I>>`,
`encode::<MsgResult<O,E>>`, `decode::<MsgResult<O,E>>`). -/
structure Dencoder (I O E : Type) where
  encodeMsg : Message I → Except DencError (List Nat)
  decodeMsg : List Nat → Except DencError (Message I)
  encodeRes : MsgResult O E → Except DencError (List Nat)
  decodeRes : List Nat → Except DencError (MsgResult O E)

/-- Rust `remote::Error` (`src/actors/remote.rs` lines 201-219). -/
inductive RemoteError where
  | localE (e : LocalError)
  | spawnE (ctx : String)
  | sendE (ctx : String)
  | recvE (ctx : String)
  | decodeE (ctx : String)
  | encodeE (ctx : String)
  deriving DecidableEq

/-- Rust `Message::Stop` test (`matches!(msg, Message::<I>::Stop)`). -/
def Message.isStop : Message I → Bool
  | Message.stop => true
  | _ => false

/-- Outcome of one iteration of the bridge worker loop. -/
structure BridgeOut where
  reply : Except RemoteError (List Nat)
  innerCalled : Bool
  halt : Bool

/-- One iteration of the untyped bridge worker of `spawn_untyped`
(`src/actors/remote.rs` lines 45-84): decode the bytes (failure replies
`Error::Decode`), validate against the policy snapshot carried with the
request (failure replies the codec-encoded `Err(MsgError::NotAllowed)`
without touching the actor), otherwise forward to the local handle and
encode its result (the worker breaks after a forwarded `Stop` whose reply
encoded successfully). -/
def bridgeStep (D : Dencoder I O E) (inner : Message I → MsgResult O E)
    (msg : List Nat) (opts : HandleOpts) : BridgeOut :=
  match D.decodeMsg msg with
  | Except.error err => ⟨Except.error (RemoteError.decodeE err.str), false, false⟩
  | Except.ok m =>
      match opts.validate m with
      | Except.error (err : MsgError E) =>
          let res := (D.encodeRes (Except.error err)).mapError
            (fun e => RemoteError.encodeE e.str)
          ⟨res, false, false⟩
      | Except.ok () =>
          let stopMsg := m.isStop
          let res := inner m
          match D.encodeRes res with
          | Except.ok enc => ⟨Except.ok enc, true, stopMsg⟩
          | Except.error err => ⟨Except.error (RemoteError.encodeE err.str), true, false⟩

/-- C2: default policy.  On a bridge whose policy flags are the
`HandleOpts::new` defaults, a request that decodes to `TaskMut(i)` or to
`Stop` is answered with the codec-encoded payload
`Err(MsgError::NotAllowed)` — a successful byte reply — and the wrapped
actor is not invoked. -/
theorem bridge_default_policy_denies (D : Dencoder I O E)
    (inner : Message I → MsgResult O E) (msg : List Nat) (bs : List Nat)
    (hdec : (∃ i, D.decodeMsg msg = Except.ok (Message.taskMut i))
      ∨ D.decodeMsg msg = Except.ok Message.stop)
    (henc : D.encodeRes (Except.error MsgError.notAllowed) = Except.ok bs) :
    (bridgeStep D inner msg HandleOpts.new).reply = Except.ok bs
    ∧ (bridgeStep D inner msg HandleOpts.new).innerCalled = false := by
  rcases hdec with ⟨i, hdec⟩ | hdec <;>
    simp [bridgeStep, hdec, HandleOpts.validate, HandleOpts.new, henc,
      Except.mapError]

/-- A trivial but injective concrete codec over `Nat`-typed messages,
used by witnesses. -/
def natDencoder : Dencoder Nat Nat Nat where
  encodeMsg m :=
    match m with
    | Message.task i => Except.ok [0, i]
    | Message.taskMut i => Except.ok [1, i]
    | Message.ping => Except.ok [2]
    | Message.stop => Except.ok [3]
  decodeMsg bs :=
    match bs with
    | [0, i] => Except.ok (Message.task i)
    | [1, i] => Except.ok (Message.taskMut i)
    | [2] => Except.ok Message.ping
    | [3] => Except.ok Message.stop
    | _ => Except.error (DencError.decErr "bad message")
  encodeRes r :=
    match r with
    | Except.ok Reply.accepted => Except.ok [0]
    | Except.ok (Reply.task o) => Except.ok [1, o]
    | Except.error MsgError.send => Except.ok [2]
    | Except.error MsgError.recv => Except.ok [3]
    | Except.error (MsgError.task e) => Except.ok [4, e]
    | Except.error MsgError.notAllowed => Except.ok [5]
  decodeRes bs :=
    match bs with
    | [0] => Except.ok (Except.ok Reply.accepted)
    | [1, o] => Except.ok (Except.ok (Reply.task o))
    | [2] => Except.ok (Except.error MsgError.send)
    | [3] => Except.ok (Except.error MsgError.recv)
    | [4, e] => Except.ok (Except.error (MsgError.task e))
    | [5] => Except.ok (Except.error MsgError.notAllowed)
    | _ => Except.error (DencError.decErr "bad result")

/-- Witness for C2: the encoded `TaskMut(6)` of the concrete codec is
denied on default flags without calling the actor (spec section 8
scenario 3). -/
theorem bridge_default_policy_denies_witness :
    (bridgeStep natDencoder
        (fun m => (dispatch (multActor 2) () m).reply) [1, 6]
        HandleOpts.new).reply = Except.ok [5]
    ∧ (bridgeStep natDencoder
        (fun m => (dispatch (multActor 2) () m).reply) [1, 6]
        HandleOpts.new).innerCalled = false :=
  bridge_default_policy_denies natDencoder _ [1, 6] [5]
    (Or.inl ⟨6, rfl⟩) rfl

/-- Rust `UntypedHandle` (`src/actors/remote.rs` lines 150-153) as visible to
policy reasoning: the flags field.  All clones share one bridge channel;
`opts` is a plain per-value field, deep-copied by `#[derive(Clone)]`. -/
structure UntypedHandle where
  opts : HandleOpts
  deriving DecidableEq

/-- The tuple `UntypedHandle::send` enqueues for the bridge
(`src/actors/remote.rs` line 163): the bytes together with
`self.opts.clone()`, the snapshot taken at send time. -/
structure BridgeRequest where
  msg : List Nat
  opts : HandleOpts
  deriving DecidableEq

/-- Operations a program can perform on a family of `UntypedHandle`
clones, each identified by its index: `Clone::clone`,
`UntypedHandle::allow_mut`, `UntypedHandle::allow_stop`
(`src/actors/remote.rs` lines 182-193) and `UntypedHandle::send`. -/
inductive HandleOp where
  | cloneOf (i : Nat)
  | setMut (i : Nat) (b : Bool)
  | setStop (i : Nat) (b : Bool)
  | sendOp (i : Nat) (msg : List Nat)
  deriving DecidableEq

/-- Handles alive so far plus the requests already enqueued to the
bridge. -/
structure HandleSys where
  handles : List UntypedHandle
  requests : List BridgeRequest
  deriving DecidableEq

/-- In-place update of the i-th element. -/
def modifyAt (l : List α) (i : Nat) (f : α → α) : List α :=
  match l, i with
  | [], _ => []
  | a :: rest, 0 => f a :: rest
  | a :: rest, n + 1 => a :: modifyAt rest n f

/-- One operation on the family of handle clones: cloning appends a copy
of the current flags, `allow_mut`/`allow_stop` mutate only the targeted
clone's own flags, and `send` enqueues the bytes with a snapshot of the
sending clone's flags at that moment. -/
def handleStep (s : HandleSys) : HandleOp → HandleSys
  | HandleOp.cloneOf i =>
      match s.handles[i]? with
      | some h => ⟨s.handles ++ [h], s.requests⟩
      | none => s
  | HandleOp.setMut i b =>
      ⟨modifyAt s.handles i (fun h => ⟨⟨b, h.opts.allow_stop⟩⟩), s.requests⟩
  | HandleOp.setStop i b =>
      ⟨modifyAt s.handles i (fun h => ⟨⟨h.opts.allow_mut, b⟩⟩), s.requests⟩
  | HandleOp.sendOp i msg =>
      match s.handles[i]? with
      | some h => ⟨s.handles, s.requests ++ [⟨msg, h.opts⟩]⟩
      | none => s

/-- A run of operations. -/
def handleRun (s : HandleSys) : List HandleOp → HandleSys
  | [] => s
  | op :: ops => handleRun (handleStep s op) ops

/-- Each step only ever appends to the request log. -/
theorem handleStep_requests_extend (s : HandleSys) (op : HandleOp) :
    ∃ t, (handleStep s op).requests = s.requests ++ t := by
  cases op with
  | cloneOf i =>
      cases h : s.handles[i]? <;> exact ⟨[], by simp [handleStep, h]⟩
  | setMut i b => exact ⟨[], by simp [handleStep]⟩
  | setStop i b => exact ⟨[], by simp [handleStep]⟩
  | sendOp i msg =>
      cases h : s.handles[i]? with
      | none => exact ⟨[], by simp [handleStep, h]⟩
      | some v => exact ⟨[⟨msg, v.opts⟩], by simp [handleStep, h]⟩

/-- A run only ever appends to the request log. -/
theorem handleRun_requests_extend (s : HandleSys) (ops : List HandleOp) :
    ∃ t, (handleRun s ops).requests = s.requests ++ t := by
  induction ops generalizing s with
  | nil => exact ⟨[], by simp [handleRun]⟩
  | cons op ops ih =>
      obtain ⟨t₁, h₁⟩ := handleStep_requests_extend s op
      obtain ⟨t₂, h₂⟩ := ih (handleStep s op)
      exact ⟨t₁ ++ t₂, by simp [handleRun, h₂, h₁]⟩

/-- Updating through `modifyAt` leaves every other index unchanged. -/
theorem modifyAt_getElem?_ne (l : List α) (i j : Nat) (f : α → α) (hij : j ≠ i) :
    (modifyAt l i f)[j]? = l[j]? := by
  induction l generalizing i j with
  | nil => simp [modifyAt]
  | cons a rest ih =>
      cases i with
      | zero =>
          cases j with
          | zero => exact absurd rfl hij
          | succ j => simp [modifyAt]
      | succ i =>
          cases j with
          | zero => simp [modifyAt]
          | succ j => simpa [modifyAt] using ih i j (fun h => hij (by omega))

/-- C10: policy flags are per handle clone with a per-request snapshot.
`send` enqueues a copy of the sending clone's flags taken at send time;
cloning copies the current flags into the new handle; an
`allow_mut`/`allow_stop` toggle changes only the targeted clone's flags
and no other clone's, and no operation sequence ever alters a request
already enqueued, so the validation outcome of a sent request is fixed at
send time. -/
theorem handle_policy_snapshot (s : HandleSys) (i : Nat) (h : UntypedHandle)
    (msg : List Nat) (b : Bool) (hget : s.handles[i]? = some h) :
    (handleStep s (HandleOp.sendOp i msg)).requests
        = s.requests ++ [⟨msg, h.opts⟩]
    ∧ (handleStep s (HandleOp.cloneOf i)).handles = s.handles ++ [h]
    ∧ (∀ j, j ≠ i →
        (handleStep s (HandleOp.setMut i b)).handles[j]? = s.handles[j]?
        ∧ (handleStep s (HandleOp.setStop i b)).handles[j]? = s.handles[j]?)
    ∧ (handleStep s (HandleOp.setMut i b)).requests = s.requests
    ∧ (handleStep s (HandleOp.setStop i b)).requests = s.requests
    ∧ (∀ ops, (handleRun (handleStep s (HandleOp.sendOp i msg)) ops).requests.take
          (s.requests.length + 1) = s.requests ++ [⟨msg, h.opts⟩])
    ∧ (handleRun s [HandleOp.sendOp i msg, HandleOp.setMut i b]).requests
        = s.requests ++ [⟨msg, h.opts⟩] := by
  refine ⟨by simp [handleStep, hget], by simp [handleStep, hget], ?_, ?_, ?_, ?_, ?_⟩
  · intro j hj
    exact ⟨modifyAt_getElem?_ne _ _ _ _ hj, modifyAt_getElem?_ne _ _ _ _ hj⟩
  · simp [handleStep]
  · simp [handleStep]
  · intro ops
    obtain ⟨t, ht⟩ := handleRun_requests_extend (handleStep s (HandleOp.sendOp i msg)) ops
    have hreq : (handleStep s (HandleOp.sendOp i msg)).requests
        = s.requests ++ [(⟨msg, h.opts⟩ : BridgeRequest)] := by
      simp [handleStep, hget]
    rw [ht, hreq, List.append_assoc]
    rw [show s.requests.length + 1
        = (s.requests ++ [(⟨msg, h.opts⟩ : BridgeRequest)]).length by simp,
      ← List.append_assoc, List.take_left]
  · simp [handleRun, handleStep, hget]

/-- Witness for C10: two clones with distinct flags, a send, then a
toggle on the sender. -/
theorem handle_policy_snapshot_witness :
    (handleStep ⟨[⟨⟨false, false⟩⟩, ⟨⟨true, false⟩⟩], []⟩
        (HandleOp.sendOp 0 [2])).requests = [] ++ [⟨[2], ⟨false, false⟩⟩]
    ∧ (handleStep ⟨[⟨⟨false, false⟩⟩, ⟨⟨true, false⟩⟩], []⟩
        (HandleOp.cloneOf 0)).handles
        = [⟨⟨false, false⟩⟩, ⟨⟨true, false⟩⟩] ++ [⟨⟨false, false⟩⟩]
    ∧ (∀ j, j ≠ 0 →
        (handleStep ⟨[⟨⟨false, false⟩⟩, ⟨⟨true, false⟩⟩], []⟩
            (HandleOp.setMut 0 true)).handles[j]?
          = ([⟨⟨false, false⟩⟩, ⟨⟨true, false⟩⟩] : List UntypedHandle)[j]?
        ∧ (handleStep ⟨[⟨⟨false, false⟩⟩, ⟨⟨true, false⟩⟩], []⟩
            (HandleOp.setStop 0 true)).handles[j]?
          = ([⟨⟨false, false⟩⟩, ⟨⟨true, false⟩⟩] : List UntypedHandle)[j]?)
    ∧ (handleStep ⟨[⟨⟨false, false⟩⟩, ⟨⟨true, false⟩⟩], []⟩
        (HandleOp.setMut 0 true)).requests = []
    ∧ (handleStep ⟨[⟨⟨false, false⟩⟩, ⟨⟨true, false⟩⟩], []⟩
        (HandleOp.setStop 0 true)).requests = []
    ∧ (∀ ops, (handleRun (handleStep ⟨[⟨⟨false, false⟩⟩, ⟨⟨true, false⟩⟩], []⟩
          (HandleOp.sendOp 0 [2])) ops).requests.take
          (List.length ([] : List BridgeRequest) + 1)
          = [] ++ [⟨[2], ⟨false, false⟩⟩])
    ∧ (handleRun ⟨[⟨⟨false, false⟩⟩, ⟨⟨true, false⟩⟩], []⟩
        [HandleOp.sendOp 0 [2], HandleOp.setMut 0 true]).requests
        = [] ++ [⟨[2], ⟨false, false⟩⟩] :=
  handle_policy_snapshot ⟨[⟨⟨false, false⟩⟩, ⟨⟨true, false⟩⟩], []⟩ 0
    ⟨⟨false, false⟩⟩ [2] true rfl

/-- Rust `router::Error` (`src/actors/remote/router.rs` lines 477-495). -/
inductive RouterError where
  | init
  | connect
  | serialize (e : DencError)
  | send
  | recv
  | address (e : AddrError)
  deriving DecidableEq

/-- Rust `RouterOpts` (`src/actors/remote/router.rs` lines 219-233). -/
structure RouterOpts where
  msg_read_timeout : Nat
  max_msg_size : Nat
  deriving DecidableEq

/-- Rust `RouterOpts::default` (`src/actors/remote/router.rs` lines 255-262):
5000 ms read timeout, 4 MiB message cap. -/
def RouterOpts.default : RouterOpts := ⟨5000, 4194304⟩

/-- Big-endian `u32` read (`read_u32`): the first four stream bytes and
the remaining stream, or `none` when the stream is shorter. -/
def readU32? : List Nat → Option (Nat × List Nat)
  | b0 :: b1 :: b2 :: b3 :: rest =>
      some (((b0 * 256 + b1) * 256 + b2) * 256 + b3, rest)
  | _ => none

/-- Big-endian `u32` bytes of `n as u32` (`write_u32`). -/
def u32beBytes (n : Nat) : List Nat :=
  [n % 2 ^ 32 / 2 ^ 24, n % 2 ^ 24 / 2 ^ 16, n % 2 ^ 16 / 2 ^ 8, n % 2 ^ 8]

/-- Big-endian `u16` bytes of `n as u16` (`write_u16`). -/
def u16beBytes (n : Nat) : List Nat :=
  [n % 2 ^ 16 / 2 ^ 8, n % 2 ^ 8]

/-- What one accept-worker invocation of `try_handle_message`
(`src/actors/remote/router.rs` lines 173-213) did: its return value, how
many stream bytes it consumed after the id phase, whether it reached the
message-body `read_exact`, and the reply frame it wrote back. -/
structure HandleResult where
  outcome : Except RouterError Unit
  consumed : Nat
  bodyReadTried : Bool
  written : List Nat

/-- Rust `try_handle_message`: read the `u32` message size (failure maps to
`Recv`); sizes above `opts.max_msg_size` are rejected with `Recv` before
the body buffer exists; otherwise `read_exact` the body (failure `Recv`),
forward to the bridge handle (failure `Send`), and write the
length-prefixed reply frame. -/
def tryHandleMessage (input : List Nat)
    (handle : List Nat → Except RemoteError (List Nat)) (opts : RouterOpts) :
    HandleResult :=
  match readU32? input with
  | none => ⟨Except.error RouterError.recv, input.length, false, []⟩
  | some (msgSize, rest) =>
      if msgSize > opts.max_msg_size then
        ⟨Except.error RouterError.recv, 4, false, []⟩
      else if rest.length < msgSize then
        ⟨Except.error RouterError.recv, 4 + rest.length, true, []⟩
      else
        match handle (rest.take msgSize) with
        | Except.error _ => ⟨Except.error RouterError.send, 4 + msgSize, true, []⟩
        | Except.ok res =>
            ⟨Except.ok (), 4 + msgSize, true, u32beBytes res.length ++ res⟩

/-- C6: size discipline.  A declared message length above `max_msg_size`
makes `try_handle_message` fail with `Recv` before the body buffer is
allocated: no body byte is consumed beyond the four length bytes, the
body read is never attempted, and no reply frame is written.  A length at
or below the limit proceeds to the body read. -/
theorem router_size_bound (input : List Nat)
    (handle : List Nat → Except RemoteError (List Nat)) (opts : RouterOpts)
    (msgSize : Nat) (rest : List Nat)
    (hread : readU32? input = some (msgSize, rest)) :
    (msgSize > opts.max_msg_size →
        (tryHandleMessage input handle opts).outcome = Except.error RouterError.recv
        ∧ (tryHandleMessage input handle opts).consumed = 4
        ∧ (tryHandleMessage input handle opts).bodyReadTried = false
        ∧ (tryHandleMessage input handle opts).written = [])
    ∧ (msgSize ≤ opts.max_msg_size →
        (tryHandleMessage input handle opts).bodyReadTried = true) := by
  constructor
  · intro hgt
    simp [tryHandleMessage, hread, hgt]
  · intro hle
    have hngt : ¬ msgSize > opts.max_msg_size := by omega
    rcases hlt : decide (rest.length < msgSize) with _ | _
    · have hge : ¬ rest.length < msgSize := by simpa using hlt
      cases hh : handle (rest.take msgSize) <;>
        simp [tryHandleMessage, hread, hngt, hge, hh]
    · have hlt' : rest.length < msgSize := by simpa using hlt
      simp [tryHandleMessage, hread, hngt, hlt']

/-- Witness for C6: a declared length of 3 against a limit of 2 is
rejected; the same frame against the default options reaches the body
read. -/
theorem router_size_bound_witness :
    ((3 > RouterOpts.max_msg_size ⟨5000, 2⟩ →
        (tryHandleMessage [0, 0, 0, 3] (fun bs => Except.ok bs) ⟨5000, 2⟩).outcome
            = Except.error RouterError.recv
        ∧ (tryHandleMessage [0, 0, 0, 3] (fun bs => Except.ok bs) ⟨5000, 2⟩).consumed = 4
        ∧ (tryHandleMessage [0, 0, 0, 3] (fun bs => Except.ok bs) ⟨5000, 2⟩).bodyReadTried
            = false
        ∧ (tryHandleMessage [0, 0, 0, 3] (fun bs => Except.ok bs) ⟨5000, 2⟩).written = [])
      ∧ (3 ≤ RouterOpts.max_msg_size ⟨5000, 2⟩ →
        (tryHandleMessage [0, 0, 0, 3] (fun bs => Except.ok bs) ⟨5000, 2⟩).bodyReadTried
            = true))
    ∧ 3 > RouterOpts.max_msg_size ⟨5000, 2⟩ :=
  ⟨router_size_bound [0, 0, 0, 3] (fun bs => Except.ok bs) ⟨5000, 2⟩ 3 [] rfl,
    by decide⟩

/-- The router's peer-table key for an id: its lowercase hex form.  The
accept worker keys lookups by `hex::encode` of the id bytes read from the
wire (`try_read_id`, `src/actors/remote/router.rs` line 170), and attach
inserts under the `PeerId` of the freshly minted address, whose string
form is the same hex encoding. -/
def peerKey (pid : PeerId) : List Char := hexEncode pid.bytes

/-- First-match lookup in the peer table (`HashMap::get`). -/
def tableLookup (t : List (List Char × β)) (k : List Char) : Option β :=
  match t with
  | [] => none
  | (k₀, v) :: rest => if k₀ = k then some v else tableLookup rest k

/-- Key removal (`HashMap::remove`). -/
def tableRemove (t : List (List Char × β)) (k : List Char) :
    List (List Char × β) :=
  match t with
  | [] => []
  | (k₀, v) :: rest =>
      if k₀ = k then tableRemove rest k else (k₀, v) :: tableRemove rest k

/-- Key insertion with overwrite (`HashMap::insert`). -/
def tableInsert (t : List (List Char × β)) (k : List Char) (v : β) :
    List (List Char × β) :=
  (k, v) :: tableRemove t k

/-- Control commands of the router loop (`RouterMessage`,
`src/actors/remote/router.rs` lines 461-465).  `attach` carries the
freshly minted address (`ActorAddress::new` randomness is supplied by the
environment). -/
inductive RouterCmd (β : Type) where
  | stopCmd
  | attach (addr : ActorAddress) (h : β)
  | revoke (addr : ActorAddress)

/-- Rust `RouterReply` (`src/actors/remote/router.rs` lines 467-470). -/
inductive RouterReplyM where
  | accepted
  | address (a : ActorAddress)
  deriving DecidableEq

/-- Result of one control-loop iteration. -/
structure RouterStepOut (β : Type) where
  table : List (List Char × β)
  reply : Option RouterReplyM
  running : Bool

/-- The control arms of the router loop (`src/actors/remote/router.rs`
lines 92-113): `Stop` replies `Accepted` and exits; `Attach` inserts the
bridge under the minted peer id and replies with the address; `Revoke`
removes the peer id from the table and only then replies with the same
address it was given. -/
def routerStep (t : List (List Char × β)) : RouterCmd β → RouterStepOut β
  | RouterCmd.stopCmd => ⟨t, some RouterReplyM.accepted, false⟩
  | RouterCmd.attach addr h =>
      ⟨tableInsert t (peerKey addr.peer_id) h, some (RouterReplyM.address addr), true⟩
  | RouterCmd.revoke addr =>
      ⟨tableRemove t (peerKey addr.peer_id), some (RouterReplyM.address addr), true⟩

/-- The accept worker after the id phase (`src/actors/remote/router.rs`
lines 123-138): look the hex-encoded id up in the peer table; an unknown
peer is dropped silently — no reply frame is produced; a known peer's
stream is handed to `try_handle_message` with the bridge handle captured
at lookup time. -/
def inboundStep (t : List (List Char × (List Nat → Except RemoteError (List Nat))))
    (idBytes : List Nat) (input : List Nat) (opts : RouterOpts) :
    Option HandleResult :=
  match tableLookup t (hexEncode idBytes) with
  | none => none
  | some handle => some (tryHandleMessage input handle opts)

/-- Removal really removes the key. -/
theorem tableLookup_tableRemove_self (t : List (List Char × β)) (k : List Char) :
    tableLookup (tableRemove t k) k = none := by
  induction t with
  | nil => rfl
  | cons p rest ih =>
      obtain ⟨k₀, v⟩ := p
      by_cases hk : k₀ = k <;> simp [tableRemove, tableLookup, hk, ih]

/-- C7: revocation.  `revoke(addr)` removes `addr`'s peer id from the
peer table before replying and returns the very address it was given;
any inbound request for that id arriving against the post-revoke table is
dropped without a reply frame; a request whose bridge handle was already
resolved from the pre-revoke table completes as an ordinary
`try_handle_message` run, which never consults the table again. -/
theorem router_revoke_semantics
    (t : List (List Char × (List Nat → Except RemoteError (List Nat))))
    (addr : ActorAddress) :
    (routerStep t (RouterCmd.revoke addr)).reply
        = some (RouterReplyM.address addr)
    ∧ (routerStep t (RouterCmd.revoke addr)).running = true
    ∧ tableLookup (routerStep t (RouterCmd.revoke addr)).table
        (peerKey addr.peer_id) = none
    ∧ (∀ input opts,
        inboundStep (routerStep t (RouterCmd.revoke addr)).table
          addr.peer_id.bytes input opts = none)
    ∧ (∀ handle input opts,
        tableLookup t (peerKey addr.peer_id) = some handle →
        inboundStep t addr.peer_id.bytes input opts
          = some (tryHandleMessage input handle opts)) := by
  refine ⟨rfl, rfl, tableLookup_tableRemove_self t _, ?_, ?_⟩
  · intro input opts
    have hk : tableLookup (tableRemove t (peerKey addr.peer_id))
        (hexEncode addr.peer_id.bytes) = none :=
      tableLookup_tableRemove_self t _
    simp [inboundStep, routerStep, hk]
  · intro handle input opts hl
    simp [inboundStep, peerKey] at hl ⊢
    rw [hl]

/-- Identity bridge handle used by witnesses. -/
def echoBridge : List Nat → Except RemoteError (List Nat) := fun bs => Except.ok bs

/-- Witness for C7: one attached bridge, then a revoke, then an inbound
request for the revoked id. -/
theorem router_revoke_semantics_witness :
    (routerStep [(peerKey ⟨[0]⟩, echoBridge)]
        (RouterCmd.revoke ⟨[Char.ofNat 116], ⟨[0]⟩, [Char.ofNat 104]⟩)).reply
        = some (RouterReplyM.address ⟨[Char.ofNat 116], ⟨[0]⟩, [Char.ofNat 104]⟩)
    ∧ (routerStep [(peerKey ⟨[0]⟩, echoBridge)]
        (RouterCmd.revoke ⟨[Char.ofNat 116], ⟨[0]⟩, [Char.ofNat 104]⟩)).running = true
    ∧ tableLookup (routerStep [(peerKey ⟨[0]⟩, echoBridge)]
        (RouterCmd.revoke ⟨[Char.ofNat 116], ⟨[0]⟩, [Char.ofNat 104]⟩)).table
        (peerKey (PeerId.mk [0])) = none
    ∧ (∀ input opts,
        inboundStep (routerStep [(peerKey ⟨[0]⟩, echoBridge)]
          (RouterCmd.revoke ⟨[Char.ofNat 116], ⟨[0]⟩, [Char.ofNat 104]⟩)).table
          (PeerId.bytes ⟨[0]⟩) input opts = none)
    ∧ (∀ handle input opts,
        tableLookup [(peerKey ⟨[0]⟩, echoBridge)]
            (peerKey (PeerId.mk [0])) = some handle →
        inboundStep [(peerKey ⟨[0]⟩, echoBridge)]
          (PeerId.bytes ⟨[0]⟩) input opts
          = some (tryHandleMessage input handle opts)) :=
  router_revoke_semantics [(peerKey ⟨[0]⟩, echoBridge)]
    ⟨[Char.ofNat 116], ⟨[0]⟩, [Char.ofNat 104]⟩

/-- Reading back the big-endian `u32` frame header recovers the written
length (mod `2^32`) and leaves the rest of the stream. -/
theorem readU32?_u32beBytes (n : Nat) (rest : List Nat) :
    readU32? (u32beBytes n ++ rest) = some (n % 2 ^ 32, rest) := by
  simp only [u32beBytes, List.cons_append, List.nil_append, readU32?]
  have h : ((n % 2 ^ 32 / 2 ^ 24 * 256 + n % 2 ^ 24 / 2 ^ 16) * 256
      + n % 2 ^ 16 / 2 ^ 8) * 256 + n % 2 ^ 8 = n % 2 ^ 32 := by omega
  rw [h]

/-- Success or failure of each asynchronous step of
`RemoteHandle::send`, decided by the environment (transport and peer). -/
structure NetFaults where
  connectOk : Bool
  writeIdLenOk : Bool
  writeIdOk : Bool
  writeMsgLenOk : Bool
  writeMsgOk : Bool
  flushOk : Bool
  readLenOk : Bool
  readBodyOk : Bool
  deriving DecidableEq

/-- The fault assignment in which every transport step succeeds. -/
def netAllOk : NetFaults := ⟨true, true, true, true, true, true, true, true⟩

/-- Observable outcome of a `RemoteHandle::send` call: the bytes written
to the stream (in order), whether the flush was reached, and the returned
value. -/
structure SendTrace (O E : Type) where
  written : List Nat
  flushed : Bool
  result : Except RouterError (MsgResult O E)

/-- Rust `RemoteHandle::send` (`src/actors/remote/router.rs` lines 394-452):
connect (failure `Connect`); hex-decode the address's peer id (failure
`Connect`); write the big-endian `u16` id length, the id bytes, the
big-endian `u32` length of the codec-encoded message, the body, then
flush (each write failure `Send`, codec failure `Serialize`); read the
big-endian `u32` reply length and exactly that many body bytes (failure
`Recv`); decode the reply body (failure `Serialize`).  `reply` is the
byte stream the peer sends back. -/
def remoteSend (D : Dencoder I O E) (addr : ActorAddress) (msg : Message I)
    (f : NetFaults) (reply : List Nat) : SendTrace O E :=
  if f.connectOk = false then ⟨[], false, Except.error RouterError.connect⟩
  else
    match hexDecode (hexEncode addr.peer_id.bytes) with
    | none => ⟨[], false, Except.error RouterError.connect⟩
    | some id =>
        if f.writeIdLenOk = false then ⟨[], false, Except.error RouterError.send⟩
        else if f.writeIdOk = false then
          ⟨u16beBytes id.length, false, Except.error RouterError.send⟩
        else
          match D.encodeMsg msg with
          | Except.error e =>
              ⟨u16beBytes id.length ++ id, false,
                Except.error (RouterError.serialize e)⟩
          | Except.ok enc =>
              if f.writeMsgLenOk = false then
                ⟨u16beBytes id.length ++ id, false, Except.error RouterError.send⟩
              else if f.writeMsgOk = false then
                ⟨u16beBytes id.length ++ id ++ u32beBytes enc.length, false,
                  Except.error RouterError.send⟩
              else if f.flushOk = false then
                ⟨u16beBytes id.length ++ id ++ u32beBytes enc.length ++ enc, false,
                  Except.error RouterError.send⟩
              else
                let w := u16beBytes id.length ++ id ++ u32beBytes enc.length ++ enc
                if f.readLenOk = false then ⟨w, true, Except.error RouterError.recv⟩
                else
                  match readU32? reply with
                  | none => ⟨w, true, Except.error RouterError.recv⟩
                  | some (size, rrest) =>
                      if f.readBodyOk = false then
                        ⟨w, true, Except.error RouterError.recv⟩
                      else if rrest.length < size then
                        ⟨w, true, Except.error RouterError.recv⟩
                      else
                        match D.decodeRes (rrest.take size) with
                        | Except.error e =>
                            ⟨w, true, Except.error (RouterError.serialize e)⟩
                        | Except.ok r => ⟨w, true, Except.ok r⟩

/-- C9: the remote handle speaks exactly the wire protocol.  With every
transport step succeeding, `send` writes the request frame — big-endian
`u16` byte length of the hex-decoded peer id, the id bytes, big-endian
`u32` length of the codec-encoded message, that body — flushes, then
reads a big-endian `u32` reply length and exactly that many body bytes
and decodes them; a connect failure maps to `Connect`, each write or
flush failure to `Send`, each read failure to `Recv`, and a codec
encode or decode failure to `Serialize`. -/
theorem remote_send_protocol (D : Dencoder I O E) (addr : ActorAddress)
    (msg : Message I) (f : NetFaults) (reply : List Nat)
    (enc body : List Nat) (n : Nat) (e : DencError)
    (hb : ∀ b ∈ addr.peer_id.bytes, b < 256) :
    (D.encodeMsg msg = Except.ok enc → body.length = n → n < 2 ^ 32 →
      remoteSend D addr msg netAllOk (u32beBytes n ++ body)
        = ⟨u16beBytes addr.peer_id.bytes.length ++ addr.peer_id.bytes
            ++ u32beBytes enc.length ++ enc, true,
            (D.decodeRes body).mapError RouterError.serialize⟩)
    ∧ (f.connectOk = false →
        remoteSend D addr msg f reply
          = ⟨[], false, Except.error RouterError.connect⟩)
    ∧ (f.connectOk = true → f.writeIdLenOk = false →
        (remoteSend D addr msg f reply).result = Except.error RouterError.send)
    ∧ (f.connectOk = true → f.writeIdLenOk = true → f.writeIdOk = false →
        (remoteSend D addr msg f reply).result = Except.error RouterError.send)
    ∧ (f.connectOk = true → f.writeIdLenOk = true → f.writeIdOk = true →
        D.encodeMsg msg = Except.error e →
        (remoteSend D addr msg f reply).result
          = Except.error (RouterError.serialize e))
    ∧ (f.connectOk = true → f.writeIdLenOk = true → f.writeIdOk = true →
        D.encodeMsg msg = Except.ok enc → f.writeMsgLenOk = false →
        (remoteSend D addr msg f reply).result = Except.error RouterError.send)
    ∧ (f.connectOk = true → f.writeIdLenOk = true → f.writeIdOk = true →
        D.encodeMsg msg = Except.ok enc → f.writeMsgLenOk = true →
        f.writeMsgOk = false →
        (remoteSend D addr msg f reply).result = Except.error RouterError.send)
    ∧ (f.connectOk = true → f.writeIdLenOk = true → f.writeIdOk = true →
        D.encodeMsg msg = Except.ok enc → f.writeMsgLenOk = true →
        f.writeMsgOk = true → f.flushOk = false →
        (remoteSend D addr msg f reply).result = Except.error RouterError.send)
    ∧ (f.connectOk = true → f.writeIdLenOk = true → f.writeIdOk = true →
        D.encodeMsg msg = Except.ok enc → f.writeMsgLenOk = true →
        f.writeMsgOk = true → f.flushOk = true → f.readLenOk = false →
        (remoteSend D addr msg f reply).result = Except.error RouterError.recv
        ∧ (remoteSend D addr msg f reply).flushed = true)
    ∧ (f.connectOk = true → f.writeIdLenOk = true → f.writeIdOk = true →
        D.encodeMsg msg = Except.ok enc → f.writeMsgLenOk = true →
        f.writeMsgOk = true → f.flushOk = true → f.readLenOk = true →
        readU32? reply = none →
        (remoteSend D addr msg f reply).result = Except.error RouterError.recv)
    ∧ (∀ size rrest, f.connectOk = true → f.writeIdLenOk = true →
        f.writeIdOk = true → D.encodeMsg msg = Except.ok enc →
        f.writeMsgLenOk = true → f.writeMsgOk = true → f.flushOk = true →
        f.readLenOk = true → readU32? reply = some (size, rrest) →
        (f.readBodyOk = false ∨ rrest.length < size) →
        (remoteSend D addr msg f reply).result = Except.error RouterError.recv)
    ∧ (∀ size rrest, f.connectOk = true → f.writeIdLenOk = true →
        f.writeIdOk = true → D.encodeMsg msg = Except.ok enc →
        f.writeMsgLenOk = true → f.writeMsgOk = true → f.flushOk = true →
        f.readLenOk = true → readU32? reply = some (size, rrest) →
        f.readBodyOk = true → ¬ rrest.length < size →
        D.decodeRes (rrest.take size) = Except.error e →
        (remoteSend D addr msg f reply).result
          = Except.error (RouterError.serialize e)) := by
  have hid : hexDecode (hexEncode addr.peer_id.bytes) = some addr.peer_id.bytes :=
    hexDecode_hexEncode _ hb
  refine ⟨?_, ?_, ?_, ?_, ?_, ?_, ?_, ?_, ?_, ?_, ?_, ?_⟩
  · intro henc hlen hn32
    have hr : readU32? (u32beBytes n ++ body) = some (n % 2 ^ 32, body) :=
      readU32?_u32beBytes n body
    have hnn : n % 2 ^ 32 = n := Nat.mod_eq_of_lt hn32
    have hnlt : ¬ body.length < n := by omega
    simp only [remoteSend, netAllOk, hid, henc, hr, hnn]
    simp only [Bool.true_eq_false, if_false, hnlt, if_false]
    rw [show body.take n = body from hlen ▸ List.take_length body]
    cases hdec : D.decodeRes body <;> simp [Except.mapError, hdec]
  · intro hc; simp [remoteSend, hc]
  · intro hc h1; simp [remoteSend, hc, h1, hid]
  · intro hc h1 h2; simp [remoteSend, hc, h1, h2, hid]
  · intro hc h1 h2 henc; simp [remoteSend, hc, h1, h2, hid, henc]
  · intro hc h1 h2 henc h3; simp [remoteSend, hc, h1, h2, hid, henc, h3]
  · intro hc h1 h2 henc h3 h4
    simp [remoteSend, hc, h1, h2, hid, henc, h3, h4]
  · intro hc h1 h2 henc h3 h4 h5
    simp [remoteSend, hc, h1, h2, hid, henc, h3, h4, h5]
  · intro hc h1 h2 henc h3 h4 h5 h6
    simp [remoteSend, hc, h1, h2, hid, henc, h3, h4, h5, h6]
  · intro hc h1 h2 henc h3 h4 h5 h6 hr
    simp [remoteSend, hc, h1, h2, hid, henc, h3, h4, h5, h6, hr]
  · intro size rrest hc h1 h2 henc h3 h4 h5 h6 hr hbody
    rcases hbody with hbf | hlt
    · simp [remoteSend, hc, h1, h2, hid, henc, h3, h4, h5, h6, hr, hbf]
    · cases hbf : f.readBodyOk <;>
        simp [remoteSend, hc, h1, h2, hid, henc, h3, h4, h5, h6, hr, hbf, hlt]
  · intro size rrest hc h1 h2 henc h3 h4 h5 h6 hr hb7 hge hdec
    simp [remoteSend, hc, h1, h2, hid, henc, h3, h4, h5, h6, hr, hb7, hge, hdec]

/-- Witness for C9: the all-success trace for `Ping` against a one-byte
peer id, with the peer answering one reply byte. -/
theorem remote_send_protocol_witness :
    remoteSend natDencoder ⟨[Char.ofNat 116], ⟨[7]⟩, [Char.ofNat 104]⟩
        Message.ping netAllOk (u32beBytes 1 ++ [0])
      = ⟨u16beBytes (PeerId.bytes ⟨[7]⟩).length ++ PeerId.bytes ⟨[7]⟩
          ++ u32beBytes (List.length [2]) ++ [2], true,
          (natDencoder.decodeRes [0]).mapError RouterError.serialize⟩ :=
  (remote_send_protocol natDencoder ⟨[Char.ofNat 116], ⟨[7]⟩, [Char.ofNat 104]⟩
      Message.ping netAllOk [] [2] [0] 1 (DencError.decErr "") (by decide)).1
    rfl rfl (by norm_num)
